import Mathlib

/-!
Verification development for the schema-aware line-completion engine of an
MCP command shell (source: `src/mcp_server/prompt_completer.py`).

The embedding works on `List Char` throughout.  Pure Python string operations
(`str.strip`, `str.split`, `str.find`, slicing, `re` scans) are translated to
executable list scanners; `shlex.split` is translated to a tokenizer in the
`Except` monad whose `error` value stands for Python's `ValueError`, and each
`try/except ValueError` of the source becomes an explicit `match` on that
result.  JSON-schema dictionaries become the inductive `JSchema`; a
prompt-toolkit `Completion` becomes the structure `Candidate`.
-/

namespace MCPComplete

/-- Python `str.isspace` / `str.strip` whitespace characters (the ASCII ones,
which are the only ones these inputs contain); identical to the character
class of the regex `\s`. -/
def isWs (c : Char) : Bool :=
  c = ' ' || c = '\t' || c = '\n' || c = '\r' || c = '\x0b' || c = '\x0c'

/-- Whitespace of a posix `shlex` lexer (`shlex.whitespace = " \t\r\n"`). -/
def isShWs (c : Char) : Bool :=
  c = ' ' || c = '\t' || c = '\r' || c = '\n'

/-- The single-quote character (code point 39), a quote character of the
`shlex` lexer. -/
def squote : Char :=
  Char.ofNat 39

/-- The `[a-zA-Z0-9_]` character class (regex `\w` on this input alphabet). -/
def isWordChar (c : Char) : Bool :=
  (c ≥ 'a' && c ≤ 'z') || (c ≥ 'A' && c ≤ 'Z') || (c ≥ '0' && c ≤ '9') || c = '_'

/-- Python `str.strip()` with no argument: drop leading and trailing
whitespace. -/
def stripL (l : List Char) : List Char :=
  ((l.dropWhile isWs).reverse.dropWhile isWs).reverse

/-- Boolean prefix test on character lists. -/
def isPrefixL : List Char → List Char → Bool
  | [], _ => true
  | _ :: _, [] => false
  | a :: as, b :: bs => a = b && isPrefixL as bs

/-- Python `str.startswith`. -/
def startsWithL (l pre : List Char) : Bool :=
  isPrefixL pre l

/-- Python `str.endswith`. -/
def endsWithL (l suf : List Char) : Bool :=
  isPrefixL suf.reverse l.reverse

/-- Python `c in s` for a single character. -/
def containsC (l : List Char) (c : Char) : Bool :=
  l.any (· = c)

/-- Python `s.count(c)` for a single character. -/
def countC (l : List Char) (c : Char) : Nat :=
  (l.filter (· = c)).length

/-- Python `s.find(c)`: index of the first occurrence (callers only use it
when the character is present). -/
def findIdxC (l : List Char) (c : Char) : Nat :=
  l.findIdx (· = c)

/-- Python `s.rfind(c)`: index of the last occurrence (callers only use it
when the character is present). -/
def rfindIdxC (l : List Char) (c : Char) : Nat :=
  l.length - 1 - (l.reverse.findIdx (· = c))

/-- Python slice `s[a:b]` for `0 ≤ a, b` (out-of-range bounds clamp, an empty
slice results when `b ≤ a`). -/
def pySlice (a b : Nat) (l : List Char) : List Char :=
  (l.take b).drop a

/-- Python `s.split()` (no argument): split on whitespace runs, dropping
empty pieces.  Accumulator-structured so that the kernel can evaluate it. -/
def splitWsAux : List Char → List Char → List (List Char)
  | [], acc => if acc.isEmpty then [] else [acc.reverse]
  | c :: r, acc =>
    if isWs c then
      if acc.isEmpty then splitWsAux r [] else acc.reverse :: splitWsAux r []
    else splitWsAux r (c :: acc)

def splitWs (l : List Char) : List (List Char) :=
  splitWsAux l []

/-- Split at the first occurrence of a character: the part before it and,
when present, the remainder after it. -/
def splitFirst (c : Char) (l : List Char) : List Char × Option (List Char) :=
  if containsC l c then
    (l.takeWhile (· ≠ c), some ((l.dropWhile (· ≠ c)).drop 1))
  else (l, none)

/-- Python `s.split(' ', 2)`: at most two splits at single space characters,
keeping empty pieces. -/
def splitSpaceMax2 (l : List Char) : List (List Char) :=
  match splitFirst ' ' l with
  | (a, none) => [a]
  | (a, some r1) =>
    match splitFirst ' ' r1 with
    | (b, none) => [a, b]
    | (b, some r2) => [a, b, r2]

/-- Python `text.split('\n')[-1]`: the text after the last newline. -/
def lastLineAux : List Char → List Char → List Char
  | [], acc => acc.reverse
  | c :: r, acc => if c = '\n' then lastLineAux r [] else lastLineAux r (c :: acc)

def lastLine (l : List Char) : List Char :=
  lastLineAux l []

/-- Lexer mode of the posix `shlex` scanner: between tokens / in a token,
inside a double-quoted span, inside a single-quoted span. -/
inductive LexMode where
  | out
  | dq
  | sq
deriving DecidableEq, Repr

/-- Result of `shlex.split`: a token list, or the `ValueError` Python raises
on an unterminated quote or an escape character at end of input. -/
inductive ShRes where
  | ok (tokens : List (List Char))
  | err
deriving DecidableEq, Repr

/-- `shlex.split` (posix mode, `whitespace_split=True`), as the source calls
it.  `buf` is the current token accumulated in reverse; `has` records that a
token has been started (so `""` yields an empty token). -/
def shlexRun : List Char → LexMode → List Char → Bool → ShRes
  | [], .out, buf, has => .ok (if has then [buf.reverse] else [])
  | [], .dq, _, _ => .err
  | [], .sq, _, _ => .err
  | c :: r, .out, buf, has =>
    if isShWs c then
      match shlexRun r .out [] false with
      | .ok ts => .ok (if has then buf.reverse :: ts else ts)
      | .err => .err
    else if c = '"' then shlexRun r .dq buf true
    else if c = squote then shlexRun r .sq buf true
    else if c = '\\' then
      match r with
      | [] => .err
      | d :: r2 => shlexRun r2 .out (d :: buf) true
    else shlexRun r .out (c :: buf) true
  | c :: r, .dq, buf, has =>
    if c = '"' then shlexRun r .out buf has
    else if c = '\\' then
      match r with
      | [] => .err
      | d :: r2 =>
        if d = '"' || d = '\\' then shlexRun r2 .dq (d :: buf) has
        else shlexRun r2 .dq (d :: '\\' :: buf) has
    else shlexRun r .dq (c :: buf) has
  | c :: r, .sq, buf, has =>
    if c = squote then shlexRun r .out buf has
    else shlexRun r .sq (c :: buf) has

/-- `shlex.split(line)` as used by the completer. -/
def shlexSplit (l : List Char) : ShRes :=
  shlexRun l .out [] false

/-- The restricted JSON-Schema view the completer reads: the `type` entry
(absent when the dict has none), the `description` entry (the empty string
stands for an absent one, exactly as `.get('description', '')` collapses
them), the insertion-ordered `properties` entries (absent when the dict has
no `properties` key), and the `required` list (`.get('required', [])`
collapses absent to empty). -/
inductive JSchema where
  | mk (ty : Option (List Char)) (desc : List Char)
      (props : Option (List (List Char × JSchema)))
      (req : List (List Char))

def JSchema.ty : JSchema → Option (List Char)
  | .mk t _ _ _ => t

def JSchema.desc : JSchema → List Char
  | .mk _ d _ _ => d

def JSchema.props : JSchema → Option (List (List Char × JSchema))
  | .mk _ _ p _ => p

def JSchema.req : JSchema → List (List Char)
  | .mk _ _ _ r => r

/-- `prop_schema.get('type', 'string')`. -/
def JSchema.ptype (s : JSchema) : List Char :=
  s.ty.getD (("string").toList)

/-- Dict lookup `d.get(k)` on an insertion-ordered association list (keys are
unique in a Python dict, so the first hit is the only one). -/
def lookupProp (props : List (List Char × JSchema)) (name : List Char) : Option JSchema :=
  (props.find? (fun p => p.1 = name)).map (·.2)

/-- `self.schema and 'properties' in self.schema` followed by the
`self.schema['properties']` read: the properties list when the schema is
present and has one. -/
def schemaProps (schema : Option JSchema) : Option (List (List Char × JSchema)) :=
  schema.bind (·.props)

/-- A prompt-toolkit `Completion`: insertion text, `start_position` (an
offset relative to the cursor; the engine replaces `-startPos` characters
before the cursor), and the display label (`display` defaults to the text
when the source does not pass one). -/
structure Candidate where
  text : List Char
  startPos : Int
  display : List Char
deriving DecidableEq, Repr

/-- `Completion(t, start_position=0)`. -/
def cand0 (t : List Char) : Candidate :=
  ⟨t, 0, t⟩

/-- `Completion(t, start_position=0, display=d)`. -/
def candD (t d : List Char) : Candidate :=
  ⟨t, 0, d⟩

/-- `f'"{name}"'`. -/
def qu (s : List Char) : List Char :=
  '"' :: s ++ ['"']

/-- One attempted match of the regex `"([^"]+)":` at an opening quote whose
following characters are `l`: the captured key and the rest of the input
after the matched colon.  `[^"]+` takes everything up to the next `"` (no
shorter backtrack can succeed since the closing `"` cannot occur earlier),
which must then be followed by `:`. -/
def tryKeyMatch (l : List Char) : Option (List Char × List Char) :=
  let key := l.takeWhile (· ≠ '"')
  match l.dropWhile (· ≠ '"') with
  | '"' :: ':' :: rest => if key.isEmpty then none else some (key, rest)
  | _ => none

/-- `re.finditer(r'"([^"]+)":', json_part)` collecting `group(1)`: the
already-used property keys.  Scans left to right, advancing one character on
a failed attempt and past the whole match on a successful one.  Fuel equals
the input length, which bounds the number of scan steps. -/
def usedPropsFuel : Nat → List Char → List (List Char)
  | 0, _ => []
  | _ + 1, [] => []
  | fuel + 1, c :: r =>
    if c = '"' then
      match tryKeyMatch r with
      | some (k, rest) => k :: usedPropsFuel fuel rest
      | none => usedPropsFuel fuel r
    else usedPropsFuel fuel r

def usedProps (l : List Char) : List (List Char) :=
  usedPropsFuel l.length l

/-- `re.search(r'"(\w+)"\s*:\s*\{\s*$', json_part)`, returning `group(1)`.
The pattern is anchored at the end, so a match is a decomposition of a
suffix as `"` word-chars `"` ws* `:` ws* `{` ws*; scanning the reversed
fragment with maximal munch finds it exactly (the character classes are
disjoint). -/
def nestedTail (jp : List Char) : Option (List Char) :=
  match jp.reverse.dropWhile isWs with
  | '{' :: r2 =>
    (match r2.dropWhile isWs with
     | ':' :: r4 =>
       (match r4.dropWhile isWs with
        | '"' :: r6 =>
          let nameRev := r6.takeWhile isWordChar
          (match r6.dropWhile isWordChar with
           | '"' :: _ => if nameRev.isEmpty then none else some nameRev.reverse
           | _ => none)
        | _ => none)
     | _ => none)
  | _ => none

/-- The schema side of the nested-object branch (source lines 176–186):
under `':' in json_part and '{' in json_part`, match the `"<name>": {` tail,
look `<name>` up in the top-level `properties` dict, and demand
`prop_schema.get('type') == 'object'` with a `properties` entry; the nested
property list when all of that holds. -/
def nestedResolve (schema : Option JSchema) (jp : List Char) : Option (List (List Char × JSchema)) :=
  if containsC jp ':' = true ∧ containsC jp '{' = true then
    match nestedTail jp with
    | none => none
    | some name =>
      match schemaProps schema with
      | none => none
      | some props =>
        match lookupProp props name with
        | none => none
        | some ps =>
          if ps.ty = some (("object").toList) then ps.props else none
  else none

/-- The typed key:value template of the at-object-open branch (source lines
113–135). -/
def atOpenCand (p : List Char × JSchema) : Candidate :=
  let n := p.1
  let d := p.2.desc
  let t := p.2.ptype
  if t = ("string").toList then
    candD (qu n ++ (": \"\"").toList) (qu n ++ (": \"...\" - ").toList ++ d)
  else if t = ("boolean").toList then
    candD (qu n ++ (": true").toList) (qu n ++ (": true/false - ").toList ++ d)
  else if t = ("object").toList then
    candD (qu n ++ (": \x7b\x7d").toList) (qu n ++ (": \x7b\x7d - ").toList ++ d)
  else
    candD (qu n ++ (": ").toList) (qu n ++ (" - ").toList ++ d)

/-- The typed key:value template of the after-comma branch (source lines
151–169): a leading space on the insertion text, and a uniform
`"<name>" - description` label. -/
def afterCommaCand (p : List Char × JSchema) : Candidate :=
  let n := p.1
  let d := p.2.desc
  let t := p.2.ptype
  let txt :=
    if t = ("string").toList then ' ' :: qu n ++ (": \"\"").toList
    else if t = ("boolean").toList then ' ' :: qu n ++ (": true").toList
    else if t = ("object").toList then ' ' :: qu n ++ (": \x7b\x7d").toList
    else ' ' :: qu n ++ (": ").toList
  candD txt (qu n ++ (" - ").toList ++ d)

/-- The typed key:value template of the nested-object branch (source lines
189–204): note there is no `object` case here — a nested object-typed
property falls into the bare `"<name>": ` template. -/
def nestedCand (p : List Char × JSchema) : Candidate :=
  let n := p.1
  let d := p.2.desc
  let t := p.2.ptype
  let txt :=
    if t = ("string").toList then qu n ++ (": \"\"").toList
    else if t = ("boolean").toList then qu n ++ (": true").toList
    else qu n ++ (": ").toList
  candD txt (qu n ++ (" - ").toList ++ d)

/-- The inside-a-property-name branch (source lines 219–233): the text after
the last `"` is the partial name; each property name extending it yields the
remaining suffix plus `": ` (no used-key exclusion happens here). -/
def insidePropCands (schema : Option JSchema) (jp : List Char) : List Candidate :=
  match schemaProps schema with
  | none => []
  | some props =>
    let lastQ := rfindIdxC jp '"'
    let pfx := jp.drop (lastQ + 1)
    props.filterMap (fun p =>
      if startsWithL p.1 pfx = true then
        some (cand0 ((p.1.drop pfx.length) ++ ("\": ").toList))
      else none)

/-- The close-braces candidate (source lines 236–245). -/
def closeBracesCand (k : Nat) : Candidate :=
  candD (List.flatten (List.replicate k ([' ', '}']))) (("Close JSON object").toList)

/-- `JSONCompleter._provide_json_completions(json_part)`: the cascade of
early-returning branches of source lines 100–245, in source order.  The
nested-object/empty-object pair lives under the shared
`':' in json_part and '{' in json_part` guard, folded into `nestedResolve`
and the empty-object condition. -/
def provideJsonCompletions (schema : Option JSchema) (jp : List Char) : List Candidate :=
  if stripL jp = [] then
    [cand0 (['{']), cand0 (['{', '}'])]
  else if stripL jp = ['{'] then
    cand0 (['"']) ::
      (match schemaProps schema with
       | none => []
       | some props => props.map atOpenCand)
  else if endsWithL (stripL jp) ([',']) = true then
    cand0 ([' ', '"']) ::
      (match schemaProps schema with
       | none => []
       | some props =>
         (props.filter (fun p => !((usedProps jp).contains p.1))).map afterCommaCand)
  else
    match nestedResolve schema jp with
    | some nprops => cand0 (['"']) :: nprops.map nestedCand
    | none =>
      if containsC jp ':' = true ∧ containsC jp '{' = true ∧
          endsWithL (stripL jp) (['{', '}']) = true then
        [cand0 ([',', ' ', '"']), cand0 ([' ', '}'])]
      else if containsC jp '"' = true ∧ countC jp '"' % 2 = 1 then
        insidePropCands schema jp
      else if containsC jp '{' = true ∧ countC jp '}' < countC jp '{' then
        [closeBracesCand (countC jp '{' - countC jp '}')]
      else []

/-- `', '.join(parts)`. -/
def joinCommaSp : List (List Char) → List Char
  | [] => []
  | [x] => x
  | x :: y :: xs => x ++ [',', ' '] ++ joinCommaSp (y :: xs)

/-- One piece of the required-fields template (source lines 80–88):
`properties.get(prop, {})` then `.get('type', 'string')`; a boolean property
renders `"p": true`, anything else `"p": ""`. -/
def reqPartText (props : List (List Char × JSchema)) (p : List Char) : List Char :=
  let t :=
    match lookupProp props p with
    | some s => s.ptype
    | none => ("string").toList
  if t = ("boolean").toList then qu p ++ (": true").toList
  else qu p ++ (": \"\"").toList

/-- The "Template with required fields" candidate of the short-line branch
(source lines 74–92): present when the schema is present, has properties,
and has a non-empty `required` list; built from the first two required
properties. -/
def requiredTemplate (schema : Option JSchema) : List Candidate :=
  match schema with
  | none => []
  | some s =>
    match s.props with
    | none => []
    | some props =>
      if s.req = [] then []
      else
        [candD (['{', ' '] ++ joinCommaSp ((s.req.take 2).map (reqPartText props)) ++ [' ', '}'])
          (("Template with required fields").toList)]

/-- `JSONCompleter.get_completions` (source lines 33–98).  The input is the
document's `text_before_cursor`; the cursor sits at its end.  The
`try/except ValueError` around the `shlex` calls becomes the `match` on
`shlexSplit`, whose `err` branch is the `current_line.split(' ', 2)`
fallback. -/
def jsonGetCompletions (schema : Option JSchema) (text : List Char) : List Candidate :=
  let currentLine := lastLine text
  if startsWithL currentLine (("call ").toList) = false then []
  else
    let line := stripL currentLine
    let parts : List (List Char) :=
      if containsC line '{' = true then
        let jsonStart := findIdxC line '{'
        let jsonEnd := if containsC line '}' = true then rfindIdxC line '}' else line.length
        if 0 < jsonStart then
          let preJson := stripL (line.take jsonStart)
          let jsonPart := pySlice jsonStart (jsonEnd + (if containsC line '}' = true then 1 else 0)) line
          match shlexSplit preJson with
          | .ok ps => ps ++ [jsonPart]
          | .err => splitSpaceMax2 currentLine
        else
          match shlexSplit currentLine with
          | .ok ps => ps
          | .err => splitSpaceMax2 currentLine
      else
        match shlexSplit currentLine with
        | .ok ps => ps
        | .err => splitSpaceMax2 currentLine
    if parts.length < 3 then
      cand0 (['{']) :: cand0 (['{', '}']) :: cand0 (['{', '"']) :: requiredTemplate schema
    else
      provideJsonCompletions schema (parts.getD 2 [])

/-- A tool or resource descriptor, of which the completer reads only the
`name` attribute. -/
structure NamedItem where
  name : List Char
deriving DecidableEq, Repr

/-- The shell snapshot `DynamicMCPCompleter` reads: `shell.commands` (its
keys, in order), `shell.tools`, `shell.resources`, and the `shell.schemas`
cache keyed by `"<tool>:args"`. -/
structure ShellState where
  commands : List (List Char)
  tools : List NamedItem
  resources : List NamedItem
  schemas : List (List Char × JSchema)

/-- `self.shell.schemas.get(key)`. -/
def lookupSchema (st : ShellState) (key : List Char) : Option JSchema :=
  (st.schemas.find? (fun p => p.1 = key)).map (·.2)

/-- The final `try: shlex.split(line) except ValueError: line.split()` of
`_parse_quoted_command` (source lines 284–289). -/
def defaultParse (line : List Char) : List (List Char) :=
  match shlexSplit line with
  | .ok ps => ps
  | .err => splitWs line

/-- The outer guard of the JSON special case in `_parse_quoted_command`
(source lines 264–265): the stripped line starts with one of the three
verbs and contains both `{` and `}`. -/
def specialJsonGuard (ls : List Char) : Bool :=
  (startsWithL ls (("call ").toList) || startsWithL ls (("read ").toList) ||
    startsWithL ls (("tool-details ").toList)) &&
    containsC ls '{' && containsC ls '}'

/-- `DynamicMCPCompleter._parse_quoted_command(line, command)` (source lines
254–289). -/
def parseQuotedCommand (line cmd : List Char) : List (List Char) :=
  if startsWithL line cmd = false then []
  else
    let ls := stripL line
    if specialJsonGuard ls = true then
      let js := findIdxC ls '{'
      let je := rfindIdxC ls '}'
      if 0 < js ∧ js < je then
        match shlexSplit (stripL (ls.take js)) with
        | .ok ps => ps ++ [pySlice js (je + 1) ls]
        | .err => defaultParse line
      else defaultParse line
    else defaultParse line

/-- `Document.get_word_before_cursor(WORD=False)` of prompt-toolkit: empty
when the character before the cursor is whitespace (or there is none),
otherwise the maximal trailing run drawn from the regex alternative
`[a-zA-Z0-9_]+|[^a-zA-Z0-9_\s]+` that the last character belongs to. -/
def wordBeforeCursor (text : List Char) : List Char :=
  match text.reverse with
  | [] => []
  | c :: _ =>
    if isWs c then []
    else if isWordChar c then (text.reverse.takeWhile isWordChar).reverse
    else (text.reverse.takeWhile (fun x => !isWordChar x && !isWs x)).reverse

def toLowerL (l : List Char) : List Char :=
  l.map Char.toLower

/-- prompt-toolkit `WordCompleter(words, ignore_case=True).get_completions`:
case-insensitive prefix match of each word against the word before the
cursor, replacing that word (`start_position = -len(word_before_cursor)`). -/
def wordCompleterCands (words : List (List Char)) (text : List Char) : List Candidate :=
  let w := wordBeforeCursor text
  words.filterMap (fun a =>
    if startsWithL (toLowerL a) (toLowerL w) = true then
      some ⟨a, -(Int.ofNat w.length), a⟩
    else none)

/-- The first `call` branch of `DynamicMCPCompleter.get_completions` (source
lines 298–315): `some` exactly when the Python code returns inside it. -/
def callToolBranch (st : ShellState) (currentLine text : List Char) : Option (List Candidate) :=
  if startsWithL currentLine (("call ").toList) = true then
    if 2 ≤ (parseQuotedCommand currentLine (("call ").toList)).length then
      if (parseQuotedCommand currentLine (("call ").toList)).getD 1 [] ≠ [] ∧
          (3 ≤ (parseQuotedCommand currentLine (("call ").toList)).length ∨
            endsWithL currentLine ([' ']) = true) then
        if st.tools.any
            (fun t => t.name = (parseQuotedCommand currentLine (("call ").toList)).getD 1 []) =
            true then
          some (jsonGetCompletions
            (lookupSchema st
              ((parseQuotedCommand currentLine (("call ").toList)).getD 1 [] ++ ((":args").toList)))
            text)
        else none
      else none
    else none
  else none

/-- The `read` branch (source lines 317–328). -/
def readBranch (st : ShellState) (currentLine : List Char) : Option (List Candidate) :=
  if startsWithL currentLine (("read ").toList) = true then
    if (parseQuotedCommand currentLine (("read ").toList)).length = 1 then
      some (st.resources.map (fun r =>
        if containsC r.name ' ' = true then cand0 (qu r.name) else cand0 r.name))
    else none
  else none

/-- The second `call` branch, suggesting tool names (source lines 330–341). -/
def callNamesBranch (st : ShellState) (currentLine : List Char) : Option (List Candidate) :=
  if startsWithL currentLine (("call ").toList) = true then
    if (parseQuotedCommand currentLine (("call ").toList)).length = 1 then
      some (st.tools.map (fun t =>
        if containsC t.name ' ' = true then cand0 (qu t.name) else cand0 t.name))
    else none
  else none

/-- The `tool-details` branch (source lines 343–354). -/
def toolDetailsBranch (st : ShellState) (currentLine : List Char) : Option (List Candidate) :=
  if startsWithL currentLine (("tool-details ").toList) = true then
    if (parseQuotedCommand currentLine (("tool-details ").toList)).length = 1 then
      some (st.tools.map (fun t =>
        if containsC t.name ' ' = true then cand0 (qu t.name) else cand0 t.name))
    else none
  else none

/-- The default word list (source lines 356–359). -/
def shellWords (st : ShellState) : List (List Char) :=
  st.commands ++ st.tools.map (·.name) ++ st.resources.map (·.name)

/-- `DynamicMCPCompleter.get_completions` (source lines 291–362): the
branches in source order, each `return`ing when it fires, ending in the
`WordCompleter` fallback. -/
def dynGetCompletions (st : ShellState) (text : List Char) : List Candidate :=
  let currentLine := lastLine text
  match callToolBranch st currentLine text with
  | some r => r
  | none =>
    match readBranch st currentLine with
    | some r => r
    | none =>
      match callNamesBranch st currentLine with
      | some r => r
      | none =>
        match toolDetailsBranch st currentLine with
        | some r => r
        | none => wordCompleterCands (shellWords st) text

/-- The typed value part of an at-object-open template, as the claim lists
it: `""` for a string property, `true` for a boolean one, `{}` for an
object one, nothing for anything else. -/
def valueTemplate (t : List Char) : List Char :=
  if t = ("string").toList then (": \"\"").toList
  else if t = ("boolean").toList then (": true").toList
  else if t = ("object").toList then (": \x7b\x7d").toList
  else (": ").toList

/-- Spec-side classifier, written from the spec's own words (§4.3
`InsidePropertyName`): the cursor is inside an open string that is, by
position in the grammar, an object key and not a value.  A linear scan
tracks whether we are inside a string and whether the next string is in key
position (after `{` or `,`) or in value position (after `:`); the fragment
ends inside a key string when both flags hold at the end.  This definition
follows the spec, not the source, and exists only to be compared with the
source's parity test. -/
def specInsideKeyStringAux : List Char → Bool → Bool → Bool × Bool
  | [], inStr, keyPos => (inStr, keyPos)
  | c :: r, inStr, keyPos =>
    if inStr then
      if c = '"' then specInsideKeyStringAux r false keyPos
      else specInsideKeyStringAux r true keyPos
    else
      if c = '"' then specInsideKeyStringAux r true keyPos
      else if c = '{' || c = ',' then specInsideKeyStringAux r false true
      else if c = ':' then specInsideKeyStringAux r false false
      else specInsideKeyStringAux r false keyPos

def specInsideKeyString (l : List Char) : Bool :=
  let s := specInsideKeyStringAux l false true
  s.1 && s.2

/-! ### Concrete fixtures for the scenario claims -/

/-- The object-typed nested property `deep` of `preferences`. -/
def deepPair : List Char × JSchema :=
  (("deep").toList,
   .mk (some (("object").toList)) (("Nested settings").toList) (some []) [])

/-- The object-typed `preferences` property schema, with the nested `deep`
property. -/
def prefSchema : JSchema :=
  .mk (some (("object").toList)) (("User preferences").toList) (some [deepPair]) []

/-- The properties of the `example:greetingJson` schema of the spec's
scenarios: `name` a string, `include_details` a boolean, `preferences` an
object (whose own properties include the object-typed `deep`). -/
def greetProps : List (List Char × JSchema) :=
  [(("name").toList,
    .mk (some (("string").toList)) (("Name to greet").toList) none []),
   (("include_details").toList,
    .mk (some (("boolean").toList)) (("Include details").toList) none []),
   (("preferences").toList, prefSchema)]

/-- The `example:greetingJson` argument schema; `name` is required. -/
def greetSchema : JSchema :=
  .mk (some (("object").toList)) [] (some greetProps) [("name").toList]

/-- A shell snapshot knowing the `example:greetingJson` tool and its cached
argument schema. -/
def greetState : ShellState :=
  ⟨[("help").toList, ("call").toList, ("read").toList],
   [⟨("example:greetingJson").toList⟩],
   [⟨("greeting://es").toList⟩],
   [(("example:greetingJson:args").toList, greetSchema)]⟩

def greetLine : List Char :=
  ("call example:greetingJson \x7b").toList

/-- The fragment `{ "name": "x", "` of the repeated-key scenario. -/
def c2frag : List Char :=
  ("\x7b \"name\": \"x\", \"").toList

/-- The fragment `{ "name": "x",` of the after-comma scenario. -/
def c2fragComma : List Char :=
  ("\x7b \"name\": \"x\",").toList

/-- The `include_details` property entry of the greeting schema. -/
def inclPair : List Char × JSchema :=
  (("include_details").toList,
   .mk (some (("boolean").toList)) (("Include details").toList) none [])

/-- The line of the unterminated-quote scenario. -/
def c4line : List Char :=
  ("read \"resource with spaces").toList

/-- A schema with the single string property `value`. -/
def c5schema : JSchema :=
  .mk (some (("object").toList)) []
    (some [(("value").toList, .mk (some (("string").toList)) [] none [])]) []

/-- The fragment `{ "name": "val`: the cursor sits inside an open string in
value position (after the colon). -/
def c5frag : List Char :=
  ("\x7b \"name\": \"val").toList

/-- The `call unknown-tool {` line. -/
def c6line : List Char :=
  ("call unknown-tool \x7b").toList

/-- The fragment `{ "preferences": {`: inside an unclosed nested object. -/
def c8frag : List Char :=
  ("\x7b \"preferences\": \x7b").toList

/-- The fragment `{ "preferences": { "deep": {`: two levels of unclosed
nesting, so the spec's path resolution would walk `preferences` then
`deep`. -/
def c8deepFrag : List Char :=
  ("\x7b \"preferences\": \x7b \"deep\": \x7b").toList

/-! ### Sanity checks of the embedding on concrete inputs -/

example : shlexSplit ("call example:greetingJson ".toList ++ ['{']) =
    .ok [("call").toList, ("example:greetingJson").toList, ['{']] := by decide

example : shlexSplit ("call \"tool with spaces\"").toList =
    .ok [("call").toList, ("tool with spaces").toList] := by decide

example : shlexSplit ("read \"resource with spaces").toList = .err := by decide

example : shlexSplit ("a \\\"b").toList = .ok [['a'], ['"', 'b']] := by decide

example : usedProps (("\x7b \"name\": \"x\", ").toList) = [("name").toList] := by decide

example : usedProps (("\x7b \"name\" : \"x\", ").toList) = [] := by decide

example : nestedTail c8frag = some (("preferences").toList) := by decide

example : nestedTail (['{']) = none := by decide

example :
    (dynGetCompletions greetState greetLine).map (·.text) =
      [['"'],
       ("\"name\": \"\"").toList,
       ("\"include_details\": true").toList,
       ("\"preferences\": \x7b\x7d").toList] := by decide

example :
    (provideJsonCompletions (some greetSchema) (("\x7b \"name\": \"x\",").toList)).map (·.text) =
      [[' ', '"'],
       (" \"include_details\": true").toList,
       (" \"preferences\": \x7b\x7d").toList] := by decide

example :
    parseQuotedCommand (("read \"resource with spaces").toList) (("read ").toList) =
      [("read").toList, ("\"resource").toList, ("with").toList, ("spaces").toList] := by decide

example :
    (provideJsonCompletions (some greetSchema) (("\x7b \"name\": \"x\", \"").toList)).map (·.text) =
      [("name\": ").toList, ("include_details\": ").toList, ("preferences\": ").toList] := by
  decide

example :
    (provideJsonCompletions (some greetSchema) (("\x7b \"preferences\": \x7b").toList)).map (·.text) =
      [['"'], ("\"deep\": ").toList] := by decide

example :
    dynGetCompletions greetState (("call unknown-tool \x7b").toList) = [] := by decide

example :
    provideJsonCompletions none (['{']) = [cand0 (['"'])] := by decide

example :
    provideJsonCompletions (some greetSchema) (("\x7b \"a\": \x7b \"b\": \x7b").toList) =
      [closeBracesCand 3] := by decide

example :
    (dynGetCompletions greetState (("call ").toList)).map (·.text) =
      [("example:greetingJson").toList] := by decide

example :
    (jsonGetCompletions (some greetSchema) (("call example:greetingJson ").toList)).map (·.text) =
      [['{'], ['{', '}'], ['{', '"'], ("\x7b \"name\": \"\" \x7d").toList] := by decide

/-! ### Helper lemmas -/

theorem atOpenCand_text (p : List Char × JSchema) :
    (atOpenCand p).text = qu p.1 ++ valueTemplate p.2.ptype := by
  simp only [atOpenCand, valueTemplate, candD]
  split_ifs <;> rfl

theorem atOpen_output (s : JSchema) (props : List (List Char × JSchema)) (jp : List Char)
    (hs : s.props = some props) (hjp : stripL jp = ['{']) :
    provideJsonCompletions (some s) jp = cand0 (['"']) :: props.map atOpenCand := by
  have hne : ¬ (stripL jp = []) := by rw [hjp]; intro h; cases h
  unfold provideJsonCompletions
  rw [if_neg hne, if_pos hjp]
  simp [schemaProps, hs]

/-! ### Claim C1 -/

/-- C1: for every fragment whose trimmed content is exactly `{` and a
resolved schema, the completion result contains a bare `"` candidate and,
for each schema property in order, the typed key:value template (`": ""`
for string, `": true"` for boolean, `": {}"` for object, bare `": "`
otherwise); in particular the line `call example:greetingJson {` under the
greeting schema yields candidates including `"name": ""`,
`"include_details": true` and `"preferences": {}`. -/
theorem c1_atObjectOpen_schema_candidates (s : JSchema)
    (props : List (List Char × JSchema)) (p : List Char × JSchema) (jp : List Char)
    (hs : s.props = some props) (hp : p ∈ props) (hjp : stripL jp = ['{']) :
    ['"'] ∈ (provideJsonCompletions (some s) jp).map (·.text) ∧
    (qu p.1 ++ valueTemplate p.2.ptype) ∈ (provideJsonCompletions (some s) jp).map (·.text) ∧
    (("\"name\": \"\"").toList ∈ (dynGetCompletions greetState greetLine).map (·.text) ∧
      ("\"include_details\": true").toList ∈ (dynGetCompletions greetState greetLine).map (·.text) ∧
      ("\"preferences\": \x7b\x7d").toList ∈ (dynGetCompletions greetState greetLine).map (·.text)) := by
  rw [atOpen_output s props jp hs hjp]
  refine ⟨List.mem_map.mpr ⟨cand0 (['"']), List.mem_cons_self _ _, rfl⟩, ?_, by decide⟩
  exact List.mem_map.mpr
    ⟨atOpenCand p, List.mem_cons_of_mem _ (List.mem_map_of_mem _ hp), atOpenCand_text p⟩

theorem c1_atObjectOpen_schema_candidates_witness :
    ['"'] ∈ (provideJsonCompletions (some greetSchema) (['{'])).map (·.text) ∧
    (qu (("name").toList) ++ valueTemplate (("string").toList)) ∈
      (provideJsonCompletions (some greetSchema) (['{'])).map (·.text) ∧
    (("\"name\": \"\"").toList ∈ (dynGetCompletions greetState greetLine).map (·.text) ∧
      ("\"include_details\": true").toList ∈ (dynGetCompletions greetState greetLine).map (·.text) ∧
      ("\"preferences\": \x7b\x7d").toList ∈ (dynGetCompletions greetState greetLine).map (·.text)) :=
  c1_atObjectOpen_schema_candidates greetSchema greetProps
    ((("name").toList, .mk (some (("string").toList)) (("Name to greet").toList) none []))
    (['{']) rfl (by unfold greetProps; exact List.mem_cons_self _ _) rfl

/-! ### Claim C2 -/

/-- C2, counterexample: in the fragment `{ "name": "x", "` the key `name`
is already present (the used-key scan finds it), yet the generator still
produces the property-name candidate `name": ` completing the empty partial
back to that same key — the inside-property-name branch performs no used-key
exclusion. -/
theorem c2_used_key_resuggested :
    (("name").toList) ∈ usedProps c2frag ∧
    (("name\": ").toList) ∈ (provideJsonCompletions (some greetSchema) c2frag).map (·.text) := by
  decide

/-- C2, amended: the no-repeat guarantee holds for the after-comma branch:
when the fragment ends (trimmed) with a comma, every candidate is either
the structural ` "` hint or the template of a property whose exact key does
not occur as `"key":` anywhere in the fragment.  (The inside-property-name
branch may still re-suggest used keys.) -/
theorem c2_afterComma_excludes_used_keys (s : JSchema) (props : List (List Char × JSchema))
    (jp : List Char) (c : Candidate) (hs : s.props = some props)
    (hc : endsWithL (stripL jp) ([',']) = true)
    (hm : c ∈ provideJsonCompletions (some s) jp) :
    c = cand0 ([' ', '"']) ∨
      ∃ p, p ∈ props ∧ (usedProps jp).contains p.1 = false ∧ c = afterCommaCand p := by
  have hne : ¬ (stripL jp = []) := by
    intro h; rw [h] at hc; exact absurd hc (by decide)
  have hnb : ¬ (stripL jp = ['{']) := by
    intro h; rw [h] at hc; exact absurd hc (by decide)
  unfold provideJsonCompletions at hm
  rw [if_neg hne, if_neg hnb, if_pos hc] at hm
  rw [show schemaProps (some s) = some props by simp [schemaProps, hs]] at hm
  rcases List.mem_cons.mp hm with h | h
  · exact Or.inl h
  · right
    obtain ⟨p, hpf, rfl⟩ := List.mem_map.mp h
    obtain ⟨hpmem, hcond⟩ := List.mem_filter.mp hpf
    exact ⟨p, hpmem, by simpa using hcond, rfl⟩

theorem c2_afterComma_excludes_used_keys_witness :
    afterCommaCand inclPair = cand0 ([' ', '"']) ∨
      ∃ p, p ∈ greetProps ∧ (usedProps c2fragComma).contains p.1 = false ∧
        afterCommaCand inclPair = afterCommaCand p :=
  c2_afterComma_excludes_used_keys greetSchema greetProps c2fragComma
    (afterCommaCand inclPair) rfl (by decide) (by decide)

/-! ### Claim C3 -/

theorem nestedResolve_none (jp : List Char) : nestedResolve none jp = none := by
  unfold nestedResolve
  split
  · split <;> rfl
  · rfl

theorem provideNone_structural (jp : List Char) (c : Candidate)
    (h : c ∈ provideJsonCompletions none jp) :
    c.text ∈ [['{'], ['{', '}'], ['"'], [' ', '"'], [',', ' ', '"'], [' ', '}']] ∨
      ∃ k, c.text = (closeBracesCand k).text := by
  unfold provideJsonCompletions at h
  split at h
  · simp at h
    rcases h with rfl | rfl <;> exact Or.inl (by decide)
  · split at h
    · simp [schemaProps] at h
      subst h
      exact Or.inl (by decide)
    · split at h
      · simp [schemaProps] at h
        subst h
        exact Or.inl (by decide)
      · split at h
        next nprops heq => rw [nestedResolve_none] at heq; cases heq
        next heq =>
          split at h
          · simp at h
            rcases h with rfl | rfl <;> exact Or.inl (by decide)
          · split at h
            · simp [insidePropCands, schemaProps] at h
            · split at h
              · simp at h
                subst h
                exact Or.inr ⟨_, rfl⟩
              · simp at h

/-- C3: the completion entry points never surface an exception: when the
`shlex` tokenization of a line fails with `ValueError` (and the JSON
special case does not apply), the quoted splitter degrades to a literal
whitespace split of the line; and when no schema resolves, the JSON
generator produces only the fixed structural hints or a run of closing
braces — fewer or no candidates, never an abort. -/
theorem c3_no_raise_degradation (line cmd jp : List Char) (c : Candidate)
    (h1 : startsWithL line cmd = true)
    (h2 : specialJsonGuard (stripL line) = false)
    (h3 : shlexSplit line = .err)
    (h4 : c ∈ provideJsonCompletions none jp) :
    parseQuotedCommand line cmd = splitWs line ∧
    (c.text ∈ [['{'], ['{', '}'], ['"'], [' ', '"'], [',', ' ', '"'], [' ', '}']] ∨
      ∃ k, c.text = (closeBracesCand k).text) := by
  constructor
  · simp [parseQuotedCommand, defaultParse, h1, h2, h3]
  · exact provideNone_structural jp c h4

theorem c3_no_raise_degradation_witness :
    parseQuotedCommand (("call \"x").toList) (("call ").toList) = splitWs (("call \"x").toList) ∧
    ((cand0 (['"'])).text ∈ [['{'], ['{', '}'], ['"'], [' ', '"'], [',', ' ', '"'], [' ', '}']] ∨
      ∃ k, (cand0 (['"'])).text = (closeBracesCand k).text) :=
  c3_no_raise_degradation (("call \"x").toList) (("call ").toList) (['{']) (cand0 (['"']))
    (by decide) (by decide) (by decide) (by decide)

/-! ### Claim C4 -/

/-- C4, counterexample: on the line `read "resource with spaces` the quoted
splitter does not return the two tokens `read`, `resource with spaces`. -/
theorem c4_two_token_claim_false :
    parseQuotedCommand c4line (("read ").toList) ≠
      [("read").toList, ("resource with spaces").toList] := by decide

/-- C4, amended: on the line `read "resource with spaces` the `shlex`
tokenization fails with `ValueError` on the unterminated quote; the
splitter catches it and falls back to a plain whitespace split, returning
the four tokens `read`, `"resource`, `with`, `spaces` (the quote character
kept literally) — and does not raise. -/
theorem c4_unterminated_quote_fallback :
    shlexSplit c4line = .err ∧
    parseQuotedCommand c4line (("read ").toList) =
      [("read").toList, ("\"resource").toList, ("with").toList, ("spaces").toList] := by
  decide

/-! ### Claim C5 -/

theorem suffix_ne_close_label (l : List Char) :
    l ++ ("\": ").toList ≠ ("Close JSON object").toList := by
  intro h
  have h2 := congrArg (fun t : List Char => t.reverse.head?) h
  simp only [List.reverse_append] at h2
  have h3 : (some ' ' : Option Char) = some 't' := h2
  cases h3

theorem close_not_mem_insideProp (s : Option JSchema) (jp : List Char) (k : Nat) :
    closeBracesCand k ∉ insidePropCands s jp := by
  intro hmem
  unfold insidePropCands at hmem
  rcases hs : schemaProps s with _ | props
  · rw [hs] at hmem
    simp at hmem
  · rw [hs] at hmem
    obtain ⟨p, _, hsome⟩ := List.mem_filterMap.mp hmem
    split at hsome
    · have heq := Option.some.inj hsome
      exact suffix_ne_close_label _ (congrArg Candidate.display heq)
    · cases hsome

/-- C5, counterexample: in the fragment `{ "name": "val` the open string is
in value position (the spec-side classifier reports it is not a key), yet
the fragment has an odd number of `"` characters, so the analyzer routes it
to the inside-property-name branch and offers the property-name suffix
completion `ue": ` for the `value` property — the parity heuristic does not
distinguish keys from values. -/
theorem c5_value_position_counterexample :
    specInsideKeyString c5frag = false ∧
    containsC c5frag '"' = true ∧ countC c5frag '"' % 2 = 1 ∧
    (provideJsonCompletions (some c5schema) c5frag).map (·.text) = [("ue\": ").toList] := by
  decide

/-- C5, amended: once no earlier branch (empty, at-object-open, after-comma,
nested-object, empty-object-tail) applies, the analyzer classifies the
cursor as inside a property name exactly when the fragment contains a `"`
and its total `"` count is odd — regardless of whether the open string is a
key or a value — and that classification takes priority over the generic
closing-brace suggestion; with even parity only the close-brace candidate
(or nothing) is produced. -/
theorem c5_parity_classification (s : Option JSchema) (jp : List Char) (k : Nat)
    (h1 : stripL jp ≠ []) (h2 : stripL jp ≠ ['{'])
    (h3 : endsWithL (stripL jp) ([',']) = false)
    (h4 : nestedResolve s jp = none)
    (h5 : ¬ (containsC jp ':' = true ∧ containsC jp '{' = true ∧
        endsWithL (stripL jp) (['{', '}']) = true)) :
    ((containsC jp '"' = true ∧ countC jp '"' % 2 = 1) →
      provideJsonCompletions s jp = insidePropCands s jp ∧
        closeBracesCand k ∉ provideJsonCompletions s jp) ∧
    (¬ (containsC jp '"' = true ∧ countC jp '"' % 2 = 1) →
      provideJsonCompletions s jp = [] ∨
        ∃ m, provideJsonCompletions s jp = [closeBracesCand m]) := by
  have hbase : provideJsonCompletions s jp =
      (if containsC jp '"' = true ∧ countC jp '"' % 2 = 1 then insidePropCands s jp
       else if containsC jp '{' = true ∧ countC jp '}' < countC jp '{' then
         [closeBracesCand (countC jp '{' - countC jp '}')]
       else []) := by
    simp only [provideJsonCompletions, h4]
    rw [if_neg h1, if_neg h2, if_neg (by simp [h3]), if_neg h5]
  constructor
  · intro hp
    rw [hbase, if_pos hp]
    exact ⟨rfl, close_not_mem_insideProp s jp k⟩
  · intro hp
    rw [hbase, if_neg hp]
    by_cases hb : containsC jp '{' = true ∧ countC jp '}' < countC jp '{'
    · rw [if_pos hb]
      exact Or.inr ⟨_, rfl⟩
    · rw [if_neg hb]
      exact Or.inl rfl

theorem c5_parity_classification_witness :
    provideJsonCompletions (some c5schema) c5frag = insidePropCands (some c5schema) c5frag ∧
    closeBracesCand 1 ∉ provideJsonCompletions (some c5schema) c5frag :=
  (c5_parity_classification (some c5schema) c5frag 1 (by decide) (by decide) (by decide)
    rfl (by decide)).1 (by decide)

/-! ### Claim C6 -/

theorem isPrefixL_cons_elim {a : Char} {as l : List Char}
    (h : isPrefixL (a :: as) l = true) : ∃ t, l = a :: t := by
  cases l with
  | nil => exact absurd h (by simp [isPrefixL])
  | cons b bs =>
    simp only [isPrefixL, Bool.and_eq_true, decide_eq_true_eq] at h
    exact ⟨bs, by rw [← h.1]⟩

theorem call_not_read {cl : List Char} (h : startsWithL cl (("call ").toList) = true) :
    startsWithL cl (("read ").toList) = false := by
  have h2 : isPrefixL ('c' :: ("all ").toList) cl = true := h
  obtain ⟨t, rfl⟩ := isPrefixL_cons_elim h2
  rfl

theorem call_not_toolDetails {cl : List Char}
    (h : startsWithL cl (("call ").toList) = true) :
    startsWithL cl (("tool-details ").toList) = false := by
  have h2 : isPrefixL ('c' :: ("all ").toList) cl = true := h
  obtain ⟨t, rfl⟩ := isPrefixL_cons_elim h2
  rfl

/-- C6, counterexample: with the greeting shell snapshot, the line
`call unknown-tool {` produces no candidates at all — in particular not the
two bare structural hints `{` and `{}` — because the unknown tool name
falls through to the default word completer, whose word before the cursor
is `{` and matches no known command, tool or resource name. -/
theorem c6_exact_structural_hints_false :
    dynGetCompletions greetState c6line = [] ∧
    ¬ (dynGetCompletions greetState c6line = [cand0 (['{']), cand0 (['{', '}'])]) := by
  decide

/-- C6, amended: when the line is a `call` with at least a verb and an
argument but the named tool is unknown, the dispatcher falls through to the
default word completion over commands ++ tool names ++ resource names,
matched case-insensitively against the word before the cursor (not to
prefix matching over tool names only, and with no structural hints); on
`call unknown-tool {` under the greeting snapshot this yields no candidates
at all. -/
theorem c6_unknown_tool_fallback (st : ShellState) (text : List Char)
    (hcall : startsWithL (lastLine text) (("call ").toList) = true)
    (hlen : 2 ≤ (parseQuotedCommand (lastLine text) (("call ").toList)).length)
    (hunknown : st.tools.any
        (fun t => t.name = (parseQuotedCommand (lastLine text) (("call ").toList)).getD 1 []) =
      false) :
    dynGetCompletions st text = wordCompleterCands (shellWords st) text ∧
    dynGetCompletions greetState c6line = [] := by
  refine ⟨?_, by decide⟩
  have hlen1 : ¬ ((parseQuotedCommand (lastLine text) (("call ").toList)).length = 1) := by
    intro h
    rw [h] at hlen
    exact absurd hlen (by decide)
  have hany : ¬ (st.tools.any
      (fun t => t.name = (parseQuotedCommand (lastLine text) (("call ").toList)).getD 1 []) =
      true) := by
    rw [hunknown]
    exact Bool.false_ne_true
  have hcb : callToolBranch st (lastLine text) text = none := by
    unfold callToolBranch
    rw [if_pos hcall, if_pos hlen]
    by_cases hcond : (parseQuotedCommand (lastLine text) (("call ").toList)).getD 1 [] ≠ [] ∧
        (3 ≤ (parseQuotedCommand (lastLine text) (("call ").toList)).length ∨
          endsWithL (lastLine text) ([' ']) = true)
    · rw [if_pos hcond, if_neg hany]
    · rw [if_neg hcond]
  have hnr : ¬ (startsWithL (lastLine text) (("read ").toList) = true) := by
    rw [call_not_read hcall]
    exact Bool.false_ne_true
  have hrb : readBranch st (lastLine text) = none := by
    unfold readBranch
    rw [if_neg hnr]
  have hcnb : callNamesBranch st (lastLine text) = none := by
    unfold callNamesBranch
    rw [if_pos hcall, if_neg hlen1]
  have hntd : ¬ (startsWithL (lastLine text) (("tool-details ").toList) = true) := by
    rw [call_not_toolDetails hcall]
    exact Bool.false_ne_true
  have htdb : toolDetailsBranch st (lastLine text) = none := by
    unfold toolDetailsBranch
    rw [if_neg hntd]
  unfold dynGetCompletions
  simp only [hcb, hrb, hcnb, htdb]

theorem c6_unknown_tool_fallback_witness :
    dynGetCompletions greetState c6line = wordCompleterCands (shellWords greetState) c6line ∧
    dynGetCompletions greetState c6line = [] :=
  c6_unknown_tool_fallback greetState c6line (by decide) (by decide) (by decide)

/-! ### Claim C7 -/

/-- C7, counterexample: the fragment `{` has one more `{` than `}`, no
nested-object match and no property-name parity, yet the single candidate is
the bare `"` of the at-object-open branch, not the closing-brace run ` }` —
the earlier branches of the cascade can pre-empt the closing-brace
suggestion. -/
theorem c7_at_open_counterexample :
    countC (['{']) '{' - countC (['{']) '}' = 1 ∧
    nestedTail (['{']) = none ∧
    ¬ (containsC (['{']) '"' = true ∧ countC (['{']) '"' % 2 = 1) ∧
    provideJsonCompletions none (['{']) = [cand0 (['"'])] ∧
    closeBracesCand 1 ∉ provideJsonCompletions none (['{']) := by
  decide

/-- C7, amended: for a fragment with `k ≥ 1` more `{` than `}` in which no
earlier branch applies (not empty, not exactly `{`, not ending in a comma,
no resolved nested object, no `{}` tail, no odd quote parity), the generator
produces exactly one candidate, whose insertion text is exactly `k`
occurrences of the two-character string ` }` concatenated, labeled "Close
JSON object". -/
theorem c7_close_braces_exact (s : Option JSchema) (jp : List Char) (k : Nat)
    (h1 : stripL jp ≠ []) (h2 : stripL jp ≠ ['{'])
    (h3 : endsWithL (stripL jp) ([',']) = false)
    (h4 : nestedResolve s jp = none)
    (h5 : ¬ (containsC jp ':' = true ∧ containsC jp '{' = true ∧
        endsWithL (stripL jp) (['{', '}']) = true))
    (h6 : ¬ (containsC jp '"' = true ∧ countC jp '"' % 2 = 1))
    (h7 : containsC jp '{' = true)
    (h8 : countC jp '{' = countC jp '}' + k) (h9 : 1 ≤ k) :
    provideJsonCompletions s jp = [closeBracesCand k] ∧
    (closeBracesCand k).text = List.flatten (List.replicate k ([' ', '}'])) ∧
    (closeBracesCand k).display = ("Close JSON object").toList := by
  have hlt : countC jp '}' < countC jp '{' := by omega
  have hsub : countC jp '{' - countC jp '}' = k := by omega
  simp only [provideJsonCompletions, h4]
  rw [if_neg h1, if_neg h2, if_neg (by simp [h3]), if_neg h5, if_neg h6, if_pos ⟨h7, hlt⟩, hsub]
  exact ⟨rfl, rfl, rfl⟩

theorem c7_close_braces_exact_witness :
    provideJsonCompletions none (("\x7b \"a\": 1").toList) = [closeBracesCand 1] ∧
    (closeBracesCand 1).text = List.flatten (List.replicate 1 ([' ', '}'])) ∧
    (closeBracesCand 1).display = ("Close JSON object").toList :=
  c7_close_braces_exact none (("\x7b \"a\": 1").toList) 1 (by decide) (by decide) (by decide)
    (nestedResolve_none _) (by decide) (by decide) (by decide) (by decide) (by decide)

/-! ### Claim C8 -/

/-- C8, counterexample: in the fragment `{ "preferences": {`, whose nested
property set contains the object-typed `deep`, the offered template is the
bare `"deep": ` and not the claimed `"deep": {}` — the nested branch has no
object-typed template case. -/
theorem c8_nested_object_template_missing :
    nestedTail c8frag = some (("preferences").toList) ∧
    (provideJsonCompletions (some greetSchema) c8frag).map (·.text) =
      [['"'], ("\"deep\": ").toList] ∧
    ¬ (("\"deep\": \x7b\x7d").toList ∈
        (provideJsonCompletions (some greetSchema) c8frag).map (·.text)) := by
  decide

/-- C8, amended: the nested-object branch resolves only the single innermost
`"<name>": {` property name, against the top-level properties map (not a
path through nested properties maps); when that property resolves to an
object schema with properties it offers a bare `"` plus one template per
nested property, typed `": ""` for string and `": true` for boolean but the
bare `": ` for anything else — including nested object-typed properties;
when resolution fails, the fragment falls through to the later branches
(for `{ "preferences": { "deep": {` under the greeting schema, to three
closing braces), rather than producing no candidates. -/
theorem c8_nested_single_level (s : JSchema) (props nprops : List (List Char × JSchema))
    (name jp : List Char) (ps : JSchema) (p : List Char × JSchema)
    (h1 : stripL jp ≠ []) (h2 : stripL jp ≠ ['{'])
    (h3 : endsWithL (stripL jp) ([',']) = false)
    (hg : containsC jp ':' = true ∧ containsC jp '{' = true)
    (ht : nestedTail jp = some name)
    (hs : s.props = some props)
    (hl : lookupProp props name = some ps)
    (hty : ps.ty = some (("object").toList))
    (hnp : ps.props = some nprops)
    (_hp : p ∈ nprops) :
    provideJsonCompletions (some s) jp = cand0 (['"']) :: nprops.map nestedCand ∧
    (nestedCand p).text =
      qu p.1 ++
        (if p.2.ptype = ("string").toList then (": \"\"").toList
         else if p.2.ptype = ("boolean").toList then (": true").toList
         else (": ").toList) ∧
    provideJsonCompletions (some greetSchema) c8deepFrag = [closeBracesCand 3] := by
  have hres : nestedResolve (some s) jp = some nprops := by
    unfold nestedResolve
    rw [if_pos hg, ht]
    simp [schemaProps, hs, hl, hty, hnp]
  refine ⟨?_, ?_, by decide⟩
  · unfold provideJsonCompletions
    rw [if_neg h1, if_neg h2, if_neg (by simp [h3]), hres]
  · simp only [nestedCand, candD]
    split_ifs <;> rfl

theorem c8_nested_single_level_witness :
    provideJsonCompletions (some greetSchema) c8frag =
      cand0 (['"']) :: [deepPair].map nestedCand ∧
    (nestedCand deepPair).text = qu (("deep").toList) ++ (": ").toList ∧
    provideJsonCompletions (some greetSchema) c8deepFrag = [closeBracesCand 3] :=
  c8_nested_single_level greetSchema greetProps [deepPair] (("preferences").toList) c8frag
    prefSchema deepPair (by decide) (by decide) (by decide) (by decide) (by decide)
    rfl rfl rfl rfl (List.mem_cons_self _ _)

/-! ### Claim C9 -/

/-- C9, counterexample: at the open brace the candidate order puts the
fixed structural hint `"` first and the schema-ordered property templates
after it, not property templates followed by the structural hints. -/
theorem c9_hint_before_properties :
    provideJsonCompletions (some greetSchema) (['{']) =
      cand0 (['"']) :: greetProps.map atOpenCand ∧
    provideJsonCompletions (some greetSchema) (['{']) ≠
      greetProps.map atOpenCand ++ [cand0 (['"'])] := by
  decide

/-- C9, amended: two calls of the completion entry point with equal
(line, cursor) input and equal snapshots return element-wise identical,
identically-ordered candidate sequences; at the open brace the order is the
fixed structural `"` hint first, then one template per schema property in
schema insertion order. -/
theorem c9_idempotent_and_ordered (st1 st2 : ShellState) (t1 t2 : List Char)
    (s : JSchema) (props : List (List Char × JSchema)) (jp : List Char)
    (hst : st1 = st2) (ht : t1 = t2) (hs : s.props = some props) (hjp : stripL jp = ['{']) :
    dynGetCompletions st1 t1 = dynGetCompletions st2 t2 ∧
    provideJsonCompletions (some s) jp = cand0 (['"']) :: props.map atOpenCand := by
  subst hst
  subst ht
  exact ⟨rfl, atOpen_output s props jp hs hjp⟩

theorem c9_idempotent_and_ordered_witness :
    dynGetCompletions greetState greetLine = dynGetCompletions greetState greetLine ∧
    provideJsonCompletions (some greetSchema) (['{']) =
      cand0 (['"']) :: greetProps.map atOpenCand :=
  c9_idempotent_and_ordered greetState greetState greetLine greetLine greetSchema greetProps
    (['{']) rfl rfl rfl rfl

/-! ### Claim C10 -/

theorem atOpenCand_startPos (p : List Char × JSchema) : (atOpenCand p).startPos = 0 := by
  simp only [atOpenCand, candD]
  split_ifs <;> rfl

theorem requiredTemplate_startPos (schema : Option JSchema) (c : Candidate)
    (h : c ∈ requiredTemplate schema) : c.startPos = 0 := by
  unfold requiredTemplate at h
  split at h
  · simp at h
  · split at h
    · simp at h
    · split at h
      · simp at h
      · simp at h
        subst h
        rfl

theorem provide_startPos (s : Option JSchema) (jp : List Char) (c : Candidate)
    (h : c ∈ provideJsonCompletions s jp) : c.startPos = 0 := by
  unfold provideJsonCompletions at h
  split at h
  · simp at h
    rcases h with rfl | rfl <;> rfl
  · split at h
    · rcases List.mem_cons.mp h with rfl | h
      · rfl
      · rcases hsp : schemaProps s with _ | props
        · rw [hsp] at h
          simp at h
        · rw [hsp] at h
          obtain ⟨p, _, rfl⟩ := List.mem_map.mp h
          exact atOpenCand_startPos p
    · split at h
      · rcases List.mem_cons.mp h with rfl | h
        · rfl
        · rcases hsp : schemaProps s with _ | props
          · rw [hsp] at h
            simp at h
          · rw [hsp] at h
            obtain ⟨p, _, rfl⟩ := List.mem_map.mp h
            rfl
      · split at h
        next nprops heq =>
          rcases List.mem_cons.mp h with rfl | h
          · rfl
          · obtain ⟨p, _, rfl⟩ := List.mem_map.mp h
            rfl
        next heq =>
          split at h
          · simp at h
            rcases h with rfl | rfl <;> rfl
          · split at h
            · unfold insidePropCands at h
              rcases hsp : schemaProps s with _ | props
              · rw [hsp] at h
                simp at h
              · rw [hsp] at h
                obtain ⟨p, _, hsome⟩ := List.mem_filterMap.mp h
                split at hsome
                · cases Option.some.inj hsome
                  rfl
                · cases hsome
            · split at h
              · simp at h
                subst h
                rfl
              · simp at h

theorem jsonTail_startPos (schema : Option JSchema) (parts : List (List Char)) (c : Candidate)
    (h : c ∈ (if parts.length < 3 then
        cand0 (['{']) :: cand0 (['{', '}']) :: cand0 (['{', '"']) :: requiredTemplate schema
      else provideJsonCompletions schema (parts.getD 2 []))) : c.startPos = 0 := by
  split at h
  · rcases List.mem_cons.mp h with rfl | h
    · rfl
    · rcases List.mem_cons.mp h with rfl | h
      · rfl
      · rcases List.mem_cons.mp h with rfl | h
        · rfl
        · exact requiredTemplate_startPos schema c h
  · exact provide_startPos schema _ c h

theorem jsonGet_startPos (schema : Option JSchema) (text : List Char) (c : Candidate)
    (h : c ∈ jsonGetCompletions schema text) : c.startPos = 0 := by
  simp only [jsonGetCompletions] at h
  split at h
  · simp at h
  · exact jsonTail_startPos schema _ c h

theorem quotedNameCand_startPos (x : NamedItem) :
    (if containsC x.name ' ' = true then cand0 (qu x.name) else cand0 x.name).startPos = 0 := by
  split <;> rfl

theorem readBranch_startPos (st : ShellState) (cl : List Char) (r : List Candidate)
    (c : Candidate) (h : readBranch st cl = some r) (hc : c ∈ r) : c.startPos = 0 := by
  unfold readBranch at h
  split at h
  · split at h
    · cases Option.some.inj h
      obtain ⟨x, _, rfl⟩ := List.mem_map.mp hc
      exact quotedNameCand_startPos x
    · cases h
  · cases h

theorem callNamesBranch_startPos (st : ShellState) (cl : List Char) (r : List Candidate)
    (c : Candidate) (h : callNamesBranch st cl = some r) (hc : c ∈ r) : c.startPos = 0 := by
  unfold callNamesBranch at h
  split at h
  · split at h
    · cases Option.some.inj h
      obtain ⟨x, _, rfl⟩ := List.mem_map.mp hc
      exact quotedNameCand_startPos x
    · cases h
  · cases h

theorem toolDetailsBranch_startPos (st : ShellState) (cl : List Char) (r : List Candidate)
    (c : Candidate) (h : toolDetailsBranch st cl = some r) (hc : c ∈ r) : c.startPos = 0 := by
  unfold toolDetailsBranch at h
  split at h
  · split at h
    · cases Option.some.inj h
      obtain ⟨x, _, rfl⟩ := List.mem_map.mp hc
      exact quotedNameCand_startPos x
    · cases h
  · cases h

/-- C10: every candidate produced by the schema-driven JSON completion
paths and by the explicit read / call / tool-details name-suggestion
branches carries `start_position = 0`: it inserts at the cursor and never
replaces previously typed text. -/
theorem c10_insert_at_cursor (schema : Option JSchema) (text : List Char) (st : ShellState)
    (cl2 cl3 cl4 : List Char) (r2 r3 r4 : List Candidate) (c1 c2 c3 c4 : Candidate) :
    (c1 ∈ jsonGetCompletions schema text → c1.startPos = 0) ∧
    (readBranch st cl2 = some r2 → c2 ∈ r2 → c2.startPos = 0) ∧
    (callNamesBranch st cl3 = some r3 → c3 ∈ r3 → c3.startPos = 0) ∧
    (toolDetailsBranch st cl4 = some r4 → c4 ∈ r4 → c4.startPos = 0) :=
  ⟨fun h => jsonGet_startPos schema text c1 h,
   fun h hc => readBranch_startPos st cl2 r2 c2 h hc,
   fun h hc => callNamesBranch_startPos st cl3 r3 c3 h hc,
   fun h hc => toolDetailsBranch_startPos st cl4 r4 c4 h hc⟩

theorem c10_insert_at_cursor_witness :
    (cand0 (['"'])).startPos = 0 ∧
    (cand0 (("greeting://es").toList)).startPos = 0 ∧
    (cand0 (("example:greetingJson").toList)).startPos = 0 ∧
    (cand0 (("example:greetingJson").toList)).startPos = 0 :=
  let t := c10_insert_at_cursor (some greetSchema) greetLine greetState
    (("read ").toList) (("call ").toList) (("tool-details ").toList)
    [cand0 (("greeting://es").toList)]
    [cand0 (("example:greetingJson").toList)]
    [cand0 (("example:greetingJson").toList)]
    (cand0 (['"'])) (cand0 (("greeting://es").toList))
    (cand0 (("example:greetingJson").toList)) (cand0 (("example:greetingJson").toList))
  ⟨t.1 (by decide), t.2.1 (by decide) (by decide), t.2.2.1 (by decide) (by decide),
   t.2.2.2 (by decide) (by decide)⟩

end MCPComplete
